import Mathlib

/-!
# Verification of the `blockchain_workshop_oct_16` ledger core

Shallow embedding of the repository's blockchain state machine
(`src/types/blockchain.rs`, `src/types/transaction.rs`) and proofs about it.

Conventions of the embedding:
* `u128` values are modelled as `Nat`.  The repository is built and tested
  under cargo's default (debug) profile, where unguarded integer
  overflow/underflow aborts the process; such aborts are modelled by the
  `RustResult.panicked` outcome, as is the abort caused by `Option::unwrap` /
  `Result::unwrap` on an empty value.
* The Blake2s digest and the ed25519 signature check are external
  capabilities of the program (they are library calls, not repository code);
  they are a parameter `Crypto` of every operation, exactly as the spec
  describes them ("treated as a capability the core calls, not
  reimplemented").  Public keys and signatures are opaque scalars.
* The repository's `types` module root (defining `Account`, `AccountType`,
  `Block`, `Chain` and the type aliases) is not among the source files;
  those definitions are modelled from the spec and are marked as such below.
* `HashMap<AccountId, Account>` is modelled as an association list with
  first-match lookup and in-place first-match update; insertion appends.
-/

/-- `type AccountId = String` (alias from the absent types module, spec §3). -/
abbrev AccountId := String

/-- `type Hash = String`: hex-encoded digests. -/
abbrev Hash := String

/-- `type Error = String`: the repository uses dynamic error strings. -/
abbrev Error := String

/-- Opaque ed25519 public-key material (external to the repository). -/
abbrev PublicKey := Nat

/-- Opaque ed25519 signature material (external to the repository). -/
abbrev Signature := Nat

/-- `2^128`, the modulus / overflow bound of Rust `u128`. -/
def U128MOD : Nat := 2 ^ 128

/-- The maximum difficulty constant `0x00000000ffff0000000000000000000000000000`
from `Blockchain::append_block`. -/
def MAXTARGET : Nat := 0x00000000ffff0000000000000000000000000000

/-- The external hashing / signature-checking capabilities consumed by the
core: `digest` is Blake2s followed by `hex::encode` (a hex string), `verify`
is `ed25519_dalek::PublicKey::verify(...).is_ok()` on a message and a
signature. -/
structure Crypto where
  digest : String → String
  verify : PublicKey → String → Signature → Bool

/-- Outcome of running a Rust function that may return `Ok`, return `Err`,
or abort the process (integer overflow in a debug build, `unwrap` on a
failed parse, out-of-bounds indexing). -/
inductive RustResult (α : Type) where
  | ok (a : α)
  | err (e : Error)
  | panicked
deriving DecidableEq, Repr

/-- Modelled from the spec: `AccountType` (its defining module is not under
`src/`); only the `User` variant is ever constructed by the sources. -/
inductive AccountType where
  | User
deriving DecidableEq, Repr

/-- Modelled from the spec: `Account { account_type, public_key, balance }`
(spec §3); `Account::new` starts with balance 0 (spec §4.1). -/
structure Account where
  account_type : AccountType
  public_key : PublicKey
  balance : Nat  -- `Balance = u128`
deriving DecidableEq, Repr

/-- `Account::new(account_type, public_key)`: a zero-balance account. -/
def Account.new (account_type : AccountType) (public_key : PublicKey) : Account :=
  { account_type := account_type, public_key := public_key, balance := 0 }

/-- The ledger `HashMap<AccountId, Account>` modelled as an association
list. -/
abbrev Accounts := List (AccountId × Account)

/-- `HashMap::get`: first-match lookup. -/
def lookupAccount : Accounts → AccountId → Option Account
  | [], _ => none
  | (k, v) :: rest, id => if k = id then some v else lookupAccount rest id

/-- In-place mutation through `get_account_by_id_mut`: replace the account
stored under `id` (no effect when `id` is absent). -/
def updateAccount : Accounts → AccountId → Account → Accounts
  | [], _, _ => []
  | (k, v) :: rest, id, a => if k = id then (k, a) :: rest else (k, v) :: updateAccount rest id a

/-- `Blockchain::create_account` (WorldState impl, blockchain.rs lines
17-30): fail when the id is occupied, otherwise insert a fresh zero-balance
account. -/
def create_account (A : Accounts) (account_id : AccountId) (account_type : AccountType)
    (public_key : PublicKey) : Except Error Accounts :=
  match lookupAccount A account_id with
  | some _ => Except.error ("AccountId already exist: " ++ account_id)
  | none => Except.ok (A ++ [(account_id, Account.new account_type public_key)])

/-- `TransactionData` (transaction.rs lines 16-21). -/
inductive TransactionData where
  | CreateAccount (id : AccountId) (pk : PublicKey)
  | MintInitialSupply (toId : AccountId) (amount : Nat)
  | Transfer (toId : AccountId) (amount : Nat)
deriving DecidableEq, Repr

/-- `Transaction` (transaction.rs lines 7-14). -/
structure Transaction where
  nonce : Nat
  timestamp : Nat  -- `Timestamp = u128`
  «from» : Option AccountId
  data : TransactionData
  signature : Option Signature
deriving DecidableEq, Repr

/-- `Transaction::new(data, from, timestamp)` (transaction.rs lines 24-32). -/
def Transaction.new (data : TransactionData) («from» : Option AccountId)
    (timestamp : Nat) : Transaction :=
  { nonce := 0, timestamp := timestamp, «from» := «from», data := data, signature := none }

/-- `Transaction::sign` (transaction.rs lines 34-37): store the signature. -/
def Transaction.sign (t : Transaction) (signature : Option Signature) : Transaction :=
  { t with signature := signature }

/-- The `Debug` rendering of an `Option<String>` (`None` / `Some("...")`),
as produced inside `format!("{:?}", ...)`. -/
def debugOptionString : Option String → String
  | none => "None"
  | some s => "Some(\"" ++ s ++ "\")"

/-- The `Debug` rendering of the external `PublicKey` value; its exact shape
is irrelevant to every theorem below (only which fields feed the hash
matters), it is modelled as an injective rendering of the opaque key. -/
def debugPublicKey (pk : PublicKey) : String :=
  "PublicKey(" ++ toString pk ++ ")"

/-- The derived `Debug` rendering of `TransactionData`. -/
def TransactionData.debugFmt : TransactionData → String
  | TransactionData.CreateAccount id pk =>
      "CreateAccount(\"" ++ id ++ "\", " ++ debugPublicKey pk ++ ")"
  | TransactionData.MintInitialSupply toId amount =>
      "MintInitialSupply \x7b to: \"" ++ toId ++ "\", amount: " ++ toString amount ++ " \x7d"
  | TransactionData.Transfer toId amount =>
      "Transfer \x7b to: \"" ++ toId ++ "\", amount: " ++ toString amount ++ " \x7d"

/-- The string hashed by `Hashable for Transaction` (transaction.rs lines
131-147): `format!("{:?}", (nonce, timestamp, from, data))`.  The signature
field is not part of it. -/
def Transaction.serialize (t : Transaction) : String :=
  "(" ++ toString t.nonce ++ ", " ++ toString t.timestamp ++ ", " ++
    debugOptionString t.«from» ++ ", " ++ t.data.debugFmt ++ ")"

/-- `Transaction::hash`: hex-encoded Blake2s digest of the serialized
`(nonce, timestamp, from, data)` tuple. -/
def Transaction.hash (c : Crypto) (t : Transaction) : Hash :=
  c.digest t.serialize

/-- The `Transfer` arm of `Transaction::execute` (transaction.rs lines
62-126), kept as a separate definition for ease of case analysis.  The
source clones the sender and receiver before the checks, then re-fetches
mutable references for the debit and the credit; the model mirrors that with
a second pair of lookups. -/
def executeTransfer (c : Crypto) (t : Transaction) (toId : AccountId) (amount : Nat)
    (A : Accounts) : RustResult Unit × Accounts :=
  match t.«from» with
  | none => (RustResult.err "Invalid sender ID.", A)
  | some senderId =>
    match lookupAccount A senderId with
    | none => (RustResult.err "Invalid sender account.", A)
    | some sender =>
      match lookupAccount A toId with
      | none => (RustResult.err "Invalid receiver account.", A)
      | some receiver =>
        match t.signature with
        | none => (RustResult.err "Not sign.", A)
        | some sig =>
          if c.verify sender.public_key (t.hash c) sig = false then
            (RustResult.err "Invalid signature.", A)
          else if sender.balance < amount then
            (RustResult.err "Insufficient balance", A)
          else if U128MOD - 1 - amount < receiver.balance then
            (RustResult.err "Type overflow", A)
          else
            match lookupAccount A senderId with
            | none => (RustResult.err "Invalid sender account.", A)
            | some senderAcct =>
              match lookupAccount (updateAccount A senderId
                  { senderAcct with balance := senderAcct.balance - amount }) toId with
              | none =>
                  (RustResult.err "Invalid receiver account.",
                    updateAccount A senderId
                      { senderAcct with balance := senderAcct.balance - amount })
              | some receiverAcct =>
                if receiverAcct.balance + amount < U128MOD then
                  (RustResult.ok (),
                    updateAccount
                      (updateAccount A senderId
                        { senderAcct with balance := senderAcct.balance - amount })
                      toId { receiverAcct with balance := receiverAcct.balance + amount })
                else (RustResult.panicked,
                    updateAccount A senderId
                      { senderAcct with balance := senderAcct.balance - amount })

/-- `Transaction::execute` (transaction.rs lines 39-128).  The state it
mutates through the `WorldState` trait is the account map; the returned map
is the post-call state (also on `Err`, where the source simply has not
mutated anything yet, and on a panic, where it is unobservable). -/
def Transaction.execute (c : Crypto) (t : Transaction) (A : Accounts)
    (is_genesis : Bool) : RustResult Unit × Accounts :=
  match t.data with
  | TransactionData.CreateAccount account_id public_key =>
    match create_account A account_id AccountType.User public_key with
    | Except.ok A2 => (RustResult.ok (), A2)
    | Except.error e => (RustResult.err e, A)
  | TransactionData.MintInitialSupply toId amount =>
    if is_genesis = false then
      (RustResult.err "Initial supply can be minted only in genesis block.", A)
    else
      match lookupAccount A toId with
      | some account =>
        if account.balance + amount < U128MOD then
          (RustResult.ok (), updateAccount A toId { account with balance := account.balance + amount })
        else (RustResult.panicked, A)
      | none => (RustResult.err "Invalid account.", A)
  | TransactionData.Transfer toId amount => executeTransfer c t toId amount A

/-- Modelled from the spec: `Block` (spec §3, §4.3; its defining module is
not under `src/`): `{ nonce, prev_hash, transactions, hash }` where `hash`
is the content hash cached by the builder (`block.hash` is read by `validate`
and by the tests).  The builder (`new` / `add_transaction` / `set_nonce`)
keeps the cached hash current, and `verify()` recomputes the content hash
and confirms it matches the cached one (spec §4.3: "recomputes this hash and
confirms it is internally consistent"). -/
structure Block where
  nonce : Nat
  prev_hash : Option Hash
  transactions : List Transaction
  hash : Option Hash
deriving DecidableEq, Repr

/-- Modelled from the spec: the `Hashable for Block` content hash, a digest
of `(nonce, prev_hash, transactions)` (spec §4.3), hex-encoded.  This is the
source's `block.hash()` method (the model names it `computedHash` because
`hash` is taken by the cached field). -/
def Block.computedHash (c : Crypto) (b : Block) : Hash :=
  c.digest ("(" ++ toString b.nonce ++ ", " ++ debugOptionString b.prev_hash ++ ", [" ++
    String.intercalate ", " (b.transactions.map (fun t => t.hash c)) ++ "])")

/-- Modelled from the spec: the builder refreshes the cached hash after
every mutation. -/
def Block.updateHash (c : Crypto) (b : Block) : Block :=
  { b with hash := some (b.computedHash c) }

/-- Modelled from the spec: `Block::new(prev_hash)` starts an empty block
linked to the caller-supplied previous hash. -/
def Block.new (c : Crypto) (prev_hash : Option Hash) : Block :=
  Block.updateHash c { nonce := 0, prev_hash := prev_hash, transactions := [], hash := none }

/-- Modelled from the spec: `Block::add_transaction` appends to the ordered
transaction sequence. -/
def Block.add_transaction (c : Crypto) (b : Block) (t : Transaction) : Block :=
  Block.updateHash c { b with transactions := b.transactions ++ [t] }

/-- Modelled from the spec: `Block::set_nonce`. -/
def Block.set_nonce (c : Crypto) (b : Block) (nonce : Nat) : Block :=
  Block.updateHash c { b with nonce := nonce }

/-- Modelled from the spec: `Block::verify()` recomputes the content hash
and checks it against the cached `hash` field. -/
def Block.verify (c : Crypto) (b : Block) : Bool :=
  b.hash == some (b.computedHash c)

/-- `Blockchain` (blockchain.rs lines 8-14).  `Chain<Block>` keeps its head
(most recently appended block) first: `validate` walks from the head down to
genesis and `head()` is the most recent block, so the chain is modelled as a
list with newest block first and `append` = cons. -/
structure Blockchain where
  target : Nat
  blocks : List Block
  accounts : Accounts
  transaction_pool : List Transaction
deriving DecidableEq, Repr

/-- `Blockchain::new()`: `Default::default()` — empty chain, empty ledger,
target 0 (the `u128` default). -/
def Blockchain.new : Blockchain :=
  { target := 0, blocks := [], accounts := [], transaction_pool := [] }

/-- `Blockchain::get_last_block_hash` (blockchain.rs lines 143-145):
recompute the head block's content hash. -/
def Blockchain.get_last_block_hash (c : Crypto) (st : Blockchain) : Option Hash :=
  st.blocks.head?.map (Block.computedHash c)

/-- The transaction loop of `append_block` (blockchain.rs lines 62-69)
without the rollback: run each transaction in order against the threaded
ledger, stopping at the first error or panic. -/
def execTxs (c : Crypto) (A : Accounts) : List Transaction → Bool → RustResult Unit × Accounts
  | [], _ => (RustResult.ok (), A)
  | t :: rest, is_genesis =>
    match t.execute c A is_genesis with
    | (RustResult.ok _, A2) => execTxs c A2 rest is_genesis
    | (RustResult.err e, A2) => (RustResult.err e, A2)
    | (RustResult.panicked, A2) => (RustResult.panicked, A2)

/-- `Rust: let mut ratio = ((actual as f64)/(expected as f64)) as u128; if
ratio > 4 { ratio = 4; }` (blockchain.rs lines 86-90).  The `f64` division
followed by the truncating cast is modelled as exact natural floor division:
the two agree whenever `actual` is below `2^53` (every timestamp spread the
program can see); the modelling gap is recorded where claim C4 is settled. -/
def ratioClamped (actual expected : Nat) : Nat :=
  if actual / expected > 4 then 4 else actual / expected

/-- `str::parse::<u128>` on a string: optional leading `+`, then one or more
ASCII decimal digits whose value fits in `u128`; anything else (in
particular any hex letter of an encoded digest) is a parse error. -/
def parseU128? (s : String) : Option Nat :=
  let chars := match s.toList with
    | '+' :: rest => rest
    | l => l
  if chars = [] then none
  else if chars.all (fun ch => ch.isDigit) then
    let v := chars.foldl (fun acc ch => acc * 10 + (ch.toNat - 48)) 0
    if v < U128MOD then some v else none
  else none

/-- The retarget-and-commit tail of `append_block` (blockchain.rs lines
82-102), reached after the transaction loop and the genesis/target gate:
index the first and last transactions (a panic on an empty vector — made
unreachable by the emptiness check), subtract the timestamps (u128 underflow
panics), clamp the ratio, multiply into the new target (u128 overflow
panics), clamp at the maximum constant, and push the block. -/
def Blockchain.retargetAppend (c : Crypto) (st : Blockchain) (b : Block) :
    RustResult Unit × Blockchain :=
  match b.transactions.head?, b.transactions.getLast? with
  | some ftx, some ltx =>
    if ltx.timestamp < ftx.timestamp then (RustResult.panicked, st)
    else if U128MOD ≤ st.target *
        ratioClamped (ltx.timestamp - ftx.timestamp) (b.transactions.length * 10 * 60) then
      (RustResult.panicked, st)
    else if st.target *
        ratioClamped (ltx.timestamp - ftx.timestamp) (b.transactions.length * 10 * 60) >
        MAXTARGET then
      (RustResult.ok (), { st with target := MAXTARGET, blocks := b :: st.blocks })
    else
      (RustResult.ok (),
        { st with
          target := st.target *
            ratioClamped (ltx.timestamp - ftx.timestamp) (b.transactions.length * 10 * 60),
          blocks := b :: st.blocks })
  | _, _ => (RustResult.panicked, st)

/-- The genesis / proof-of-work gate of `append_block` (blockchain.rs lines
73-80) followed by the retarget tail: for genesis fix the target to the
maximum constant; otherwise decimal-parse the block's hex hash (`.unwrap()`
panics when that fails) and reject when the value is at or above the
target.  Both surviving paths fall through into the retarget tail. -/
def Blockchain.gateAndCommit (c : Crypto) (st : Blockchain) (b : Block) (is_genesis : Bool) :
    RustResult Unit × Blockchain :=
  if is_genesis then
    Blockchain.retargetAppend c { st with target := MAXTARGET } b
  else
    match parseU128? (b.computedHash c) with
    | none => (RustResult.panicked, st)
    | some v =>
      if st.target ≤ v then (RustResult.err "The hash of block more than target.", st)
      else Blockchain.retargetAppend c st b

/-- `Blockchain::append_block` (blockchain.rs lines 50-103).  On a
transaction failure the account snapshot taken before the loop is restored;
note that the proof-of-work rejection path inside `gateAndCommit` returns
`Err` without restoring it. -/
def Blockchain.append_block (c : Crypto) (st : Blockchain) (b : Block) :
    RustResult Unit × Blockchain :=
  if b.verify c = false then (RustResult.err "Block has invalid hash", st)
  else if b.transactions.length = 0 then (RustResult.err "Block has 0 transactions.", st)
  else
    match execTxs c st.accounts b.transactions st.blocks.isEmpty with
    | (RustResult.ok _, accOk) =>
        Blockchain.gateAndCommit c { st with accounts := accOk } b st.blocks.isEmpty
    | (RustResult.err e, _) =>
        (RustResult.err ("Error during tx execution: " ++ e), { st with accounts := st.accounts })
    | (RustResult.panicked, accMid) => (RustResult.panicked, { st with accounts := accMid })

/-- The loop body of `Blockchain::validate` (blockchain.rs lines 105-141):
walk the chain from the head, checking `verify()`, the genesis/prev_hash
shape, and — for every block but the head — that the carried `prev_hash`
matches the current block's cached hash (`block.hash.clone().unwrap()`,
a panic when the cached hash is absent). -/
def validateLoop (c : Crypto) (totalLen : Nat) :
    Nat → Option Hash → List Block → RustResult Unit
  | _, _, [] => RustResult.ok ()
  | blockNum, prevBlockHash, b :: rest =>
    if b.verify c = false then
      RustResult.err ("Block " ++ toString blockNum ++ " has invalid hash")
    else if blockNum ≠ 1 ∧ b.prev_hash = none then
      RustResult.err ("Block " ++ toString blockNum ++ " doesn\x27t have prev_hash")
    else if blockNum = 1 ∧ b.prev_hash ≠ none then
      RustResult.err "Genesis block shouldn\x27t have prev_hash"
    else if blockNum ≠ totalLen then
      match prevBlockHash with
      | some ph =>
        match b.hash with
        | none => RustResult.panicked
        | some h =>
          if ph ≠ h then
            RustResult.err ("Block " ++ toString (blockNum + 1) ++
              " prev_hash doesn\x27t match Block " ++ toString blockNum ++ " hash")
          else validateLoop c totalLen (blockNum - 1) b.prev_hash rest
      | none => validateLoop c totalLen (blockNum - 1) b.prev_hash rest
    else validateLoop c totalLen (blockNum - 1) b.prev_hash rest

/-- `Blockchain::validate` (blockchain.rs lines 105-141). -/
def Blockchain.validate (c : Crypto) (st : Blockchain) : RustResult Unit :=
  validateLoop c st.blocks.length st.blocks.length none st.blocks

/-! ## Concrete fixtures

Concrete instantiations of the external digest / signature capabilities and
concrete states and blocks, used to evaluate the model on explicit inputs.
The digest strings are shaped like real `hex::encode(Blake2s)` outputs:
64 lowercase hex characters. -/

/-- A digest value consisting only of decimal digits, of numeric value 7. -/
def hashSeven : String := "0000000000000000000000000000000000000000000000000000000000000007"

/-- A digest value containing hex letters (as almost every Blake2s digest
does); `str::parse::<u128>` fails on it. -/
def hashLetters : String := "00000000ffff0000000000000000000000000000000000000000000000000000"

/-- A digest value consisting only of decimal digits whose numeric value is
`u128::MAX`. -/
def hashUMax : String := "0000000000000000000000000340282366920938463463374607431768211455"

/-- A digest value consisting only of decimal digits, of numeric value 291
(decimal reading of "123"), well below `MAXTARGET`. -/
def hashLow : String := "0000000000000000000000000000000000000000000000000000000000000123"

/-- Capability instance: constant digest `hashSeven`, signature checks
accept. -/
def cSeven : Crypto := ⟨fun _ => hashSeven, fun _ _ _ => true⟩

/-- Capability instance: constant digest `hashLetters`. -/
def cLetters : Crypto := ⟨fun _ => hashLetters, fun _ _ _ => true⟩

/-- Capability instance: constant digest `hashUMax`. -/
def cUMax : Crypto := ⟨fun _ => hashUMax, fun _ _ _ => true⟩

/-- Capability instance: constant digest `hashLow`. -/
def cLow : Crypto := ⟨fun _ => hashLow, fun _ _ _ => true⟩

/-- Capability instance with identity digest, used for pure
transaction-level evaluations where the digest value is irrelevant. -/
def cId : Crypto := ⟨fun s => s, fun _ _ _ => true⟩

/-- A create-account transaction for id "b". -/
def txCreateB : Transaction := ⟨0, 0, none, TransactionData.CreateAccount "b" 2, none⟩

/-- A non-genesis chain state with one (arbitrary) block, one funded
account and target 0 — the target every chain reaches after a genesis block
whose timestamp spread is below its baseline. -/
def stGate : Blockchain :=
  { target := 0, blocks := [Block.new cSeven none],
    accounts := [("a", ⟨AccountType.User, 1, 50⟩)], transaction_pool := [] }

/-- A block carrying one successful create-account transaction, built by
the builder so that `verify` holds. -/
def bGate : Block := Block.set_nonce cSeven (Block.add_transaction cSeven (Block.new cSeven (some "x")) txCreateB) 1

/-- A non-genesis chain state whose digest capability produces ordinary
hex digests (with letters). -/
def stHex : Blockchain :=
  { target := MAXTARGET, blocks := [Block.new cLetters none], accounts := [],
    transaction_pool := [] }

/-- The same single-transaction block built under `cLetters`. -/
def bHex : Block := Block.set_nonce cLetters (Block.add_transaction cLetters (Block.new cLetters (some "x")) txCreateB) 1

/-- A genesis block with a single create-account transaction (timestamp
spread 0, hence retarget ratio 0). -/
def bGenesisOne : Block :=
  Block.set_nonce cSeven (Block.add_transaction cSeven (Block.new cSeven none)
    ⟨0, 100, none, TransactionData.CreateAccount "a" 1, none⟩) 1

/-- A ledger with a single funded account "a". -/
def ledgerA : Accounts := [("a", ⟨AccountType.User, 1, 10⟩)]

/-- A transfer from "a" to itself. -/
def txSelf : Transaction := ⟨0, 0, some "a", TransactionData.Transfer "a" 5, some 0⟩

/-- Genesis transactions for the two-block chain fixtures: the 1200-second
timestamp spread makes the genesis retarget ratio exactly 1, leaving the
target at the maximum constant. -/
def txGen1 : Transaction := ⟨0, 0, none, TransactionData.CreateAccount "satoshi" 1, none⟩

/-- Second genesis transaction (see `txGen1`). -/
def txGen2 : Transaction := ⟨0, 1200, none, TransactionData.CreateAccount "alice" 2, none⟩

/-- The genesis block of the two-block chain fixtures. -/
def bGen : Block :=
  Block.set_nonce cLow (Block.add_transaction cLow (Block.add_transaction cLow (Block.new cLow none) txGen1) txGen2) 1

/-- The chain after accepting `bGen`. -/
def stOne : Blockchain := (Blockchain.append_block cLow Blockchain.new bGen).2

/-- A create-account transaction for id "carol". -/
def txCarol : Transaction := ⟨0, 0, none, TransactionData.CreateAccount "carol" 3, none⟩

/-- A second block whose `prev_hash` is `None` — not linked to the head —
which `append_block` nevertheless accepts. -/
def bUnlinked : Block := Block.set_nonce cLow (Block.add_transaction cLow (Block.new cLow none) txCarol) 2

/-- The chain after also accepting `bUnlinked`. -/
def stBroken : Blockchain := (Blockchain.append_block cLow stOne bUnlinked).2

/-- A second block correctly linked to the head of `stOne`. -/
def bLinked : Block :=
  Block.set_nonce cLow (Block.add_transaction cLow
    (Block.new cLow (Blockchain.get_last_block_hash cLow stOne)) txCarol) 2

/-- The chain after accepting `bLinked` on top of `stOne`. -/
def stTwo : Blockchain := (Blockchain.append_block cLow stOne bLinked).2

/-- Two create-account transactions whose timestamps decrease (10 then 5). -/
def txTsTen : Transaction := ⟨0, 10, none, TransactionData.CreateAccount "x" 1, none⟩

/-- See `txTsTen`. -/
def txTsFive : Transaction := ⟨0, 5, none, TransactionData.CreateAccount "y" 2, none⟩

/-- A non-genesis state with target 0 under the all-digit `u128::MAX`
digest. -/
def stTen : Blockchain :=
  { target := 0, blocks := [Block.new cUMax none], accounts := [], transaction_pool := [] }

/-- A block whose transactions run fine but whose timestamps decrease. -/
def bTsDec : Block :=
  Block.set_nonce cUMax (Block.add_transaction cUMax (Block.add_transaction cUMax (Block.new cUMax (some "x")) txTsTen) txTsFive) 1

/-- A genesis block whose transactions run fine but whose timestamps
decrease. -/
def bTsDecGen : Block :=
  Block.set_nonce cSeven (Block.add_transaction cSeven (Block.add_transaction cSeven (Block.new cSeven none)
    ⟨0, 10, none, TransactionData.CreateAccount "p" 1, none⟩)
    ⟨0, 5, none, TransactionData.CreateAccount "q" 2, none⟩) 1

/-- A funded one-block state used for the conservation witness. -/
def stConsv : Blockchain :=
  { target := MAXTARGET, blocks := [Block.new cLow none],
    accounts := [("a", ⟨AccountType.User, 1, 7⟩)], transaction_pool := [] }

/-- A successful non-genesis block on `stConsv`. -/
def bConsv : Block := Block.set_nonce cLow (Block.add_transaction cLow (Block.new cLow (some hashLow)) txCarol) 3

/-- A ledger with two funded accounts for the transfer witness. -/
def ledgerAB : Accounts :=
  [("a", ⟨AccountType.User, 1, 10⟩), ("b", ⟨AccountType.User, 2, 3⟩)]

/-- A valid transfer of 4 from "a" to "b". -/
def txAtoB : Transaction := ⟨0, 0, some "a", TransactionData.Transfer "b" 4, some 0⟩

/-- A mint of 5 to "a". -/
def txMintA : Transaction := ⟨0, 0, none, TransactionData.MintInitialSupply "a" 5, none⟩

/-- Sum of all balances of the ledger. -/
def sumBalances (A : Accounts) : Nat :=
  (A.map (fun kv => kv.2.balance)).sum

/-- Every stored balance is a `u128` value — true of every ledger the Rust
type system can build, stated explicitly since the model uses `Nat`. -/
def AccountsWF (A : Accounts) : Prop :=
  ∀ kv ∈ A, kv.2.balance < U128MOD

instance (A : Accounts) : Decidable (AccountsWF A) := by
  unfold AccountsWF; infer_instance

/-- Chains freshly built through successful `append_block` calls whose
blocks were linked to the current head by the builder flow
(`Block::new(bc.get_last_block_hash())`), as in `utils::append_block`. -/
inductive Built (c : Crypto) : Blockchain → Prop where
  | nil : Built c Blockchain.new
  | step (st : Blockchain) (b : Block) :
      Built c st →
      b.prev_hash = Blockchain.get_last_block_hash c st →
      (Blockchain.append_block c st b).1 = RustResult.ok () →
      Built c (Blockchain.append_block c st b).2

/-- The chain-shape invariant `validate` checks: every block verifies, the
(position-wise) last block has no `prev_hash`, and every other block's
`prev_hash` is the content hash of its predecessor. -/
def ChainWF (c : Crypto) : List Block → Prop
  | [] => True
  | [b] => b.verify c = true ∧ b.prev_hash = none
  | b :: b2 :: rest =>
      b.verify c = true ∧ b.prev_hash = some (Block.computedHash c b2) ∧
      ChainWF c (b2 :: rest)

/-! ## Ledger map lemmas -/

theorem lookupAccount_mem (A : Accounts) (id : AccountId) (x : Account)
    (h : lookupAccount A id = some x) : (id, x) ∈ A := by
  induction A with
  | nil => simp [lookupAccount] at h
  | cons kv rest ih =>
    obtain ⟨k, v⟩ := kv
    by_cases hk : k = id
    · subst hk
      simp only [lookupAccount, if_true, eq_self_iff_true, Option.some.injEq] at h
      subst h
      exact List.mem_cons_self _ _
    · simp only [lookupAccount, if_neg hk] at h
      exact List.mem_cons_of_mem _ (ih h)

theorem lookupAccount_update_self (A : Accounts) (id : AccountId) (a x : Account)
    (h : lookupAccount A id = some x) :
    lookupAccount (updateAccount A id a) id = some a := by
  induction A with
  | nil => simp [lookupAccount] at h
  | cons kv rest ih =>
    obtain ⟨k, v⟩ := kv
    by_cases hk : k = id
    · subst hk
      simp [lookupAccount, updateAccount]
    · simp only [lookupAccount, if_neg hk] at h
      simp only [updateAccount, if_neg hk, lookupAccount, if_neg hk]
      exact ih h

theorem lookupAccount_update_ne (A : Accounts) (id id2 : AccountId) (a : Account)
    (h : id2 ≠ id) :
    lookupAccount (updateAccount A id a) id2 = lookupAccount A id2 := by
  induction A with
  | nil => simp [updateAccount]
  | cons kv rest ih =>
    obtain ⟨k, v⟩ := kv
    by_cases hk : k = id
    · subst hk
      have hne : ¬ (k = id2) := fun hh => h (hh.symm)
      simp [updateAccount, lookupAccount, if_neg hne]
    · simp only [updateAccount, if_neg hk, lookupAccount]
      by_cases hk2 : k = id2
      · simp [hk2]
      · simp [if_neg hk2, ih]

theorem sumBalances_update (A : Accounts) (id : AccountId) (a x : Account)
    (h : lookupAccount A id = some x) :
    sumBalances (updateAccount A id a) + x.balance = sumBalances A + a.balance := by
  induction A with
  | nil => simp [lookupAccount] at h
  | cons kv rest ih =>
    obtain ⟨k, v⟩ := kv
    by_cases hk : k = id
    · subst hk
      simp only [lookupAccount, if_true, eq_self_iff_true, Option.some.injEq] at h
      subst h
      simp only [updateAccount, if_true, eq_self_iff_true, sumBalances, List.map_cons,
        List.sum_cons]
      omega
    · simp only [lookupAccount, if_neg hk] at h
      simp only [updateAccount, if_neg hk, sumBalances, List.map_cons, List.sum_cons]
      have := ih h
      simp only [sumBalances] at this
      omega

theorem accountsWF_update (A : Accounts) (id : AccountId) (a : Account)
    (hwf : AccountsWF A) (hb : a.balance < U128MOD) :
    AccountsWF (updateAccount A id a) := by
  induction A with
  | nil => intro kv hkv; simp [updateAccount] at hkv
  | cons kv rest ih =>
    obtain ⟨k, v⟩ := kv
    have hwfr : AccountsWF rest := fun kv3 h3 => hwf _ (List.mem_cons_of_mem _ h3)
    intro kv2 hkv2
    by_cases hk : k = id
    · subst hk
      simp only [updateAccount, if_pos rfl] at hkv2
      rcases List.mem_cons.mp hkv2 with h1 | h2
      · subst h1; exact hb
      · exact hwf _ (List.mem_cons_of_mem _ h2)
    · simp only [updateAccount, if_neg hk] at hkv2
      rcases List.mem_cons.mp hkv2 with h1 | h2
      · subst h1; exact hwf _ (List.mem_cons_self _ _)
      · exact ih hwfr _ h2

theorem sumBalances_append_new (A : Accounts) (id : AccountId) (ty : AccountType)
    (pk : PublicKey) :
    sumBalances (A ++ [(id, Account.new ty pk)]) = sumBalances A := by
  simp [sumBalances, Account.new]

theorem accountsWF_append_new (A : Accounts) (id : AccountId) (ty : AccountType)
    (pk : PublicKey) (hwf : AccountsWF A) :
    AccountsWF (A ++ [(id, Account.new ty pk)]) := by
  intro kv hkv
  rcases List.mem_append.mp hkv with h | h
  · exact hwf _ h
  · simp only [List.mem_singleton] at h
    subst h
    simp [Account.new, U128MOD]

/-! ## Transaction execution lemmas -/

theorem executeTransfer_ok_cases (c : Crypto) (t : Transaction) (toId : AccountId)
    (amount : Nat) (A : Accounts)
    (h : (executeTransfer c t toId amount A).1 = RustResult.ok ()) :
    ∃ senderId sender receiverAcct,
      t.«from» = some senderId ∧
      lookupAccount A senderId = some sender ∧
      ¬ sender.balance < amount ∧
      lookupAccount (updateAccount A senderId
        { sender with balance := sender.balance - amount }) toId = some receiverAcct ∧
      receiverAcct.balance + amount < U128MOD ∧
      (executeTransfer c t toId amount A).2 =
        updateAccount (updateAccount A senderId
          { sender with balance := sender.balance - amount })
          toId { receiverAcct with balance := receiverAcct.balance + amount } := by
  unfold executeTransfer at h ⊢
  cases hfrom : t.«from» with
  | none => simp only [hfrom] at h; exact absurd h (by simp)
  | some senderId =>
    simp only [hfrom] at h ⊢
    cases hsend : lookupAccount A senderId with
    | none => simp only [hsend] at h; exact absurd h (by simp)
    | some sender =>
      simp only [hsend] at h ⊢
      cases hrecv : lookupAccount A toId with
      | none => simp only [hrecv] at h; exact absurd h (by simp)
      | some receiver =>
        simp only [hrecv] at h ⊢
        cases hsig : t.signature with
        | none => simp only [hsig] at h; exact absurd h (by simp)
        | some sg =>
          simp only [hsig] at h ⊢
          by_cases hv : c.verify sender.public_key (t.hash c) sg = false
          · simp only [if_pos hv] at h; exact absurd h (by simp)
          · simp only [if_neg hv] at h ⊢
            by_cases hbal : sender.balance < amount
            · simp only [if_pos hbal] at h; exact absurd h (by simp)
            · simp only [if_neg hbal] at h ⊢
              by_cases hov : U128MOD - 1 - amount < receiver.balance
              · simp only [if_pos hov] at h; exact absurd h (by simp)
              · simp only [if_neg hov] at h ⊢
                cases hrecv2 : lookupAccount (updateAccount A senderId
                    { sender with balance := sender.balance - amount }) toId with
                | none => simp only [hrecv2] at h; exact absurd h (by simp)
                | some receiverAcct =>
                  simp only [hrecv2] at h ⊢
                  by_cases hcred : receiverAcct.balance + amount < U128MOD
                  · simp only [if_pos hcred] at h ⊢
                    exact ⟨senderId, sender, receiverAcct, rfl, hsend, hbal, hrecv2, hcred, rfl⟩
                  · simp only [if_neg hcred] at h; exact absurd h (by simp)

theorem execute_ok_conserves (c : Crypto) (t : Transaction) (A : Accounts)
    (hwf : AccountsWF A)
    (hok : (t.execute c A false).1 = RustResult.ok ()) :
    sumBalances (t.execute c A false).2 = sumBalances A ∧
      AccountsWF (t.execute c A false).2 := by
  cases hdata : t.data with
  | CreateAccount id pk =>
    simp only [Transaction.execute, hdata] at hok ⊢
    cases hc : create_account A id AccountType.User pk with
    | ok A2 =>
      simp only [hc] at hok ⊢
      unfold create_account at hc
      cases hl : lookupAccount A id with
      | some x => rw [hl] at hc; exact absurd hc (by simp)
      | none =>
        rw [hl] at hc
        simp only [Except.ok.injEq] at hc
        subst hc
        exact ⟨sumBalances_append_new A id _ pk, accountsWF_append_new A id _ pk hwf⟩
    | error e => simp only [hc] at hok; exact absurd hok (by simp)
  | MintInitialSupply toId amount =>
    simp only [Transaction.execute, hdata] at hok
    exact absurd hok (by simp)
  | Transfer toId amount =>
    simp only [Transaction.execute, hdata] at hok ⊢
    obtain ⟨senderId, sender, receiverAcct, hfrom, hsend, hbal, hrecv2, hcred, heq⟩ :=
      executeTransfer_ok_cases c t toId amount A hok
    rw [heq]
    have hwb : sender.balance < U128MOD := hwf _ (lookupAccount_mem A senderId sender hsend)
    have h1 := sumBalances_update A senderId
      { sender with balance := sender.balance - amount } sender hsend
    have h2 := sumBalances_update
      (updateAccount A senderId { sender with balance := sender.balance - amount }) toId
      { receiverAcct with balance := receiverAcct.balance + amount } receiverAcct hrecv2
    dsimp only at h1 h2
    constructor
    · have hle : amount ≤ sender.balance := Nat.le_of_not_lt hbal
      omega
    · apply accountsWF_update _ _ _ _ hcred
      exact accountsWF_update _ _ _ hwf (lt_of_le_of_lt (Nat.sub_le _ _) hwb)

theorem execTxs_ok_conserves (c : Crypto) :
    ∀ (txs : List Transaction) (A : Accounts), AccountsWF A →
      (execTxs c A txs false).1 = RustResult.ok () →
      sumBalances (execTxs c A txs false).2 = sumBalances A ∧
        AccountsWF (execTxs c A txs false).2 := by
  intro txs
  induction txs with
  | nil =>
    intro A hwf hok
    dsimp only [execTxs]
    exact ⟨rfl, hwf⟩
  | cons t rest ih =>
    intro A hwf hok
    simp only [execTxs] at hok ⊢
    revert hok
    cases hres : t.execute c A false with
    | mk r A2 =>
      intro hok
      cases r with
      | ok u =>
        have hc := execute_ok_conserves c t A hwf (by rw [hres])
        rw [hres] at hc
        obtain ⟨hsum, hwf2⟩ := hc
        obtain ⟨hsum2, hwf3⟩ := ih A2 hwf2 hok
        exact ⟨by rw [hsum2, hsum], hwf3⟩
      | err e => exact absurd hok (by simp)
      | panicked => exact absurd hok (by simp)

/-! ## `append_block` structure lemmas -/

theorem retargetAppend_ok_fields (c : Crypto) (st : Blockchain) (b : Block)
    (h : (Blockchain.retargetAppend c st b).1 = RustResult.ok ()) :
    (Blockchain.retargetAppend c st b).2.blocks = b :: st.blocks ∧
    (Blockchain.retargetAppend c st b).2.accounts = st.accounts := by
  unfold Blockchain.retargetAppend at h ⊢
  cases hf : b.transactions.head? with
  | none => simp only [hf] at h; exact absurd h (by simp)
  | some ftx =>
    simp only [hf] at h ⊢
    cases hl : b.transactions.getLast? with
    | none => simp only [hl] at h; exact absurd h (by simp)
    | some ltx =>
      simp only [hl] at h ⊢
      by_cases hts : ltx.timestamp < ftx.timestamp
      · simp only [if_pos hts] at h; exact absurd h (by simp)
      · simp only [if_neg hts] at h ⊢
        by_cases hovf : U128MOD ≤ st.target *
            ratioClamped (ltx.timestamp - ftx.timestamp) (b.transactions.length * 10 * 60)
        · simp only [if_pos hovf] at h; exact absurd h (by simp)
        · simp only [if_neg hovf] at h ⊢
          by_cases hmax : st.target *
              ratioClamped (ltx.timestamp - ftx.timestamp) (b.transactions.length * 10 * 60) >
              MAXTARGET
          · rw [if_pos hmax]; exact ⟨rfl, rfl⟩
          · rw [if_neg hmax]; exact ⟨rfl, rfl⟩

theorem retargetAppend_ok_target (c : Crypto) (st : Blockchain) (b : Block)
    (ftx ltx : Transaction)
    (hf : b.transactions.head? = some ftx) (hl : b.transactions.getLast? = some ltx)
    (h : (Blockchain.retargetAppend c st b).1 = RustResult.ok ()) :
    (Blockchain.retargetAppend c st b).2.target =
      min (st.target *
        ratioClamped (ltx.timestamp - ftx.timestamp) (b.transactions.length * 10 * 60))
        MAXTARGET := by
  unfold Blockchain.retargetAppend at h ⊢
  simp only [hf, hl] at h ⊢
  by_cases hts : ltx.timestamp < ftx.timestamp
  · simp only [if_pos hts] at h; exact absurd h (by simp)
  · simp only [if_neg hts] at h ⊢
    by_cases hovf : U128MOD ≤ st.target *
        ratioClamped (ltx.timestamp - ftx.timestamp) (b.transactions.length * 10 * 60)
    · simp only [if_pos hovf] at h; exact absurd h (by simp)
    · simp only [if_neg hovf] at h ⊢
      by_cases hmax : st.target *
          ratioClamped (ltx.timestamp - ftx.timestamp) (b.transactions.length * 10 * 60) >
          MAXTARGET
      · simp only [if_pos hmax]
        exact (Nat.min_eq_right (Nat.le_of_lt hmax)).symm
      · simp only [if_neg hmax]
        exact (Nat.min_eq_left (Nat.le_of_not_lt hmax)).symm

theorem gateAndCommit_ok_fields (c : Crypto) (st : Blockchain) (b : Block) (g : Bool)
    (h : (Blockchain.gateAndCommit c st b g).1 = RustResult.ok ()) :
    (Blockchain.gateAndCommit c st b g).2.blocks = b :: st.blocks ∧
    (Blockchain.gateAndCommit c st b g).2.accounts = st.accounts := by
  unfold Blockchain.gateAndCommit at h ⊢
  cases g with
  | true =>
    rw [if_pos rfl] at h ⊢
    exact retargetAppend_ok_fields c _ b h
  | false =>
    rw [if_neg (by simp)] at h ⊢
    cases hp : parseU128? (b.computedHash c) with
    | none => simp only [hp] at h; exact absurd h (by simp)
    | some v =>
      simp only [hp] at h ⊢
      by_cases hge : st.target ≤ v
      · simp only [if_pos hge] at h; exact absurd h (by simp)
      · simp only [if_neg hge] at h ⊢
        exact retargetAppend_ok_fields c st b h

theorem append_ok_fields (c : Crypto) (st : Blockchain) (b : Block)
    (h : (Blockchain.append_block c st b).1 = RustResult.ok ()) :
    b.verify c = true ∧
    (execTxs c st.accounts b.transactions st.blocks.isEmpty).1 = RustResult.ok () ∧
    (Blockchain.append_block c st b).2.blocks = b :: st.blocks ∧
    (Blockchain.append_block c st b).2.accounts =
      (execTxs c st.accounts b.transactions st.blocks.isEmpty).2 := by
  unfold Blockchain.append_block at h ⊢
  by_cases hv : b.verify c = false
  · simp only [if_pos hv] at h; exact absurd h (by simp)
  · simp only [if_neg hv] at h ⊢
    by_cases hlen : b.transactions.length = 0
    · simp only [if_pos hlen] at h; exact absurd h (by simp)
    · simp only [if_neg hlen] at h ⊢
      revert h
      cases hex : execTxs c st.accounts b.transactions st.blocks.isEmpty with
      | mk r A2 =>
        intro h
        cases r with
        | ok u =>
          obtain ⟨hb, ha⟩ := gateAndCommit_ok_fields c { st with accounts := A2 } b
            st.blocks.isEmpty h
          refine ⟨by revert hv; cases b.verify c <;> simp, rfl, ?_, ?_⟩
          · simpa using hb
          · simpa using ha
        | err e => exact absurd h (by simp)
        | panicked => exact absurd h (by simp)

/-! ## Chain well-formedness and `validate` lemmas -/

theorem verify_hash_eq (c : Crypto) (b : Block) (h : b.verify c = true) :
    b.hash = some (b.computedHash c) := by
  unfold Block.verify at h
  exact beq_iff_eq.mp h

theorem chainWF_cons_verify (c : Crypto) (b : Block) (rest : List Block)
    (h : ChainWF c (b :: rest)) : b.verify c = true := by
  cases rest with
  | nil => exact h.1
  | cons b2 rest2 => exact h.1

theorem chainWF_tail (c : Crypto) (b : Block) (rest : List Block)
    (h : ChainWF c (b :: rest)) : ChainWF c rest := by
  cases rest with
  | nil => trivial
  | cons b2 rest2 => exact h.2.2

theorem chainWF_all_verify (c : Crypto) :
    ∀ (l : List Block), ChainWF c l → ∀ b ∈ l, b.verify c = true := by
  intro l
  induction l with
  | nil => intro _ b hb; exact absurd hb (by simp)
  | cons b rest ih =>
    intro hwf b2 hb2
    rcases List.mem_cons.mp hb2 with hq | hmem
    · subst hq; exact chainWF_cons_verify c b2 rest hwf
    · exact ih (chainWF_tail c b rest hwf) b2 hmem

theorem chainWF_prev_hash_iff (c : Crypto) :
    ∀ (pre post : List Block) (bb : Block), ChainWF c (pre ++ bb :: post) →
      (bb.prev_hash = none ↔ post = []) := by
  intro pre
  induction pre with
  | nil =>
    intro post bb hwf
    cases post with
    | nil => exact ⟨fun _ => rfl, fun _ => hwf.2⟩
    | cons b2 rest2 =>
      constructor
      · intro hnone
        rw [hwf.2.1] at hnone
        exact absurd hnone (by simp)
      · intro hpost
        exact absurd hpost (by simp)
  | cons p pre2 ih =>
    intro post bb hwf
    exact ih post bb (chainWF_tail c p _ hwf)

theorem built_chainWF (c : Crypto) (st : Blockchain) (h : Built c st) :
    ChainWF c st.blocks := by
  induction h with
  | nil => trivial
  | step st b hb hlink hok ih =>
    obtain ⟨hv, hex, hblocks, hacc⟩ := append_ok_fields c st b hok
    rw [hblocks]
    cases hsb : st.blocks with
    | nil =>
      have hp : b.prev_hash = none := by
        rw [hlink]
        unfold Blockchain.get_last_block_hash
        rw [hsb]
        rfl
      exact ⟨hv, hp⟩
    | cons b2 rest2 =>
      have hp : b.prev_hash = some (Block.computedHash c b2) := by
        rw [hlink]
        unfold Blockchain.get_last_block_hash
        rw [hsb]
        rfl
      have hwf2 : ChainWF c (b2 :: rest2) := by rw [← hsb]; exact ih
      exact ⟨hv, hp, hwf2⟩

theorem validateLoop_tail_ok (c : Crypto) (totalLen : Nat) :
    ∀ (l : List Block), ChainWF c l → l.length < totalLen →
      validateLoop c totalLen l.length (l.head?.map (Block.computedHash c)) l =
        RustResult.ok () := by
  intro l
  induction l with
  | nil => intro _ _; rfl
  | cons b rest ih =>
    intro hwf hlt
    have hv : b.verify c = true := chainWF_cons_verify c b rest hwf
    have hhash : b.hash = some (b.computedHash c) := verify_hash_eq c b hv
    show validateLoop c totalLen (b :: rest).length (some (b.computedHash c)) (b :: rest) =
      RustResult.ok ()
    unfold validateLoop
    rw [if_neg (by simp [hv])]
    cases rest with
    | nil =>
      have hp : b.prev_hash = none := hwf.2
      rw [if_neg (by simp)]
      rw [if_neg (by simp [hp])]
      rw [if_pos (by simpa using Nat.ne_of_lt hlt)]
      rw [hhash]
      simp [validateLoop]
    | cons b2 rest2 =>
      have hp : b.prev_hash = some (Block.computedHash c b2) := hwf.2.1
      rw [if_neg (by simp [hp])]
      rw [if_neg (by simp)]
      rw [if_pos (by simpa using Nat.ne_of_lt hlt)]
      rw [hhash]
      have hlt2 : (b2 :: rest2).length < totalLen :=
        Nat.lt_of_le_of_lt (by simp) hlt
      have hrec := ih hwf.2.2 hlt2
      simp only [List.head?_cons, Option.map_some', List.length_cons] at hrec
      simp [hp, hrec]

theorem validate_ok_of_chainWF (c : Crypto) (st : Blockchain)
    (hwf : ChainWF c st.blocks) : st.validate c = RustResult.ok () := by
  unfold Blockchain.validate
  rcases hsb : st.blocks with _ | ⟨b, rest⟩
  · rfl
  · rw [hsb] at hwf
    have hv : b.verify c = true := chainWF_cons_verify c b rest hwf
    unfold validateLoop
    rw [if_neg (by simp [hv])]
    cases rest with
    | nil =>
      have hp : b.prev_hash = none := hwf.2
      rw [if_neg (by simp)]
      rw [if_neg (by simp [hp])]
      rw [if_neg (by simp)]
      rfl
    | cons b2 rest2 =>
      have hp : b.prev_hash = some (Block.computedHash c b2) := hwf.2.1
      rw [if_neg (by simp [hp])]
      rw [if_neg (by simp)]
      rw [if_neg (by simp)]
      have hlt2 : (b2 :: rest2).length < (b :: b2 :: rest2).length := by simp
      have := validateLoop_tail_ok c (b :: b2 :: rest2).length (b2 :: rest2)
        hwf.2.2 hlt2
      simpa [hp] using this

theorem validateLoop_ok_all_verify (c : Crypto) (totalLen : Nat) :
    ∀ (l : List Block) (blockNum : Nat) (ph : Option Hash),
      validateLoop c totalLen blockNum ph l = RustResult.ok () →
      ∀ b2 ∈ l, b2.verify c = true := by
  intro l
  induction l with
  | nil => intro _ _ _ b2 hb2; exact absurd hb2 (by simp)
  | cons b rest ih =>
    intro blockNum ph h b2 hb2
    unfold validateLoop at h
    by_cases hv : b.verify c = false
    · rw [if_pos hv] at h; exact absurd h (by simp)
    · rw [if_neg hv] at h
      have hbv : b.verify c = true := by revert hv; cases b.verify c <;> simp
      rcases List.mem_cons.mp hb2 with hq | hmem
      · subst hq; exact hbv
      · by_cases h2 : blockNum ≠ 1 ∧ b.prev_hash = none
        · rw [if_pos h2] at h; exact absurd h (by simp)
        · rw [if_neg h2] at h
          by_cases h3 : blockNum = 1 ∧ b.prev_hash ≠ none
          · rw [if_pos h3] at h; exact absurd h (by simp)
          · rw [if_neg h3] at h
            by_cases h4 : blockNum ≠ totalLen
            · rw [if_pos h4] at h
              cases hph : ph with
              | none => rw [hph] at h; exact ih _ _ h _ hmem
              | some p =>
                rw [hph] at h
                cases hbh : b.hash with
                | none => rw [hbh] at h; exact absurd h (by simp)
                | some hh =>
                  rw [hbh] at h
                  dsimp only at h
                  by_cases h5 : p ≠ hh
                  · rw [if_pos h5] at h; exact absurd h (by simp)
                  · rw [if_neg h5] at h; exact ih _ _ h _ hmem
            · rw [if_neg h4] at h; exact ih _ _ h _ hmem

theorem validateLoop_no_panic (c : Crypto) (totalLen : Nat) :
    ∀ (l : List Block) (blockNum : Nat) (ph : Option Hash),
      (∀ b2 ∈ l, b2.hash.isSome) →
      validateLoop c totalLen blockNum ph l ≠ RustResult.panicked := by
  intro l
  induction l with
  | nil => intro _ _ _ h; simp [validateLoop] at h
  | cons b rest ih =>
    intro blockNum ph hsome h
    have hsrest : ∀ b2 ∈ rest, b2.hash.isSome :=
      fun b2 hb2 => hsome b2 (List.mem_cons_of_mem _ hb2)
    unfold validateLoop at h
    by_cases hv : b.verify c = false
    · rw [if_pos hv] at h; exact absurd h (by simp)
    · rw [if_neg hv] at h
      by_cases h2 : blockNum ≠ 1 ∧ b.prev_hash = none
      · rw [if_pos h2] at h; exact absurd h (by simp)
      · rw [if_neg h2] at h
        by_cases h3 : blockNum = 1 ∧ b.prev_hash ≠ none
        · rw [if_pos h3] at h; exact absurd h (by simp)
        · rw [if_neg h3] at h
          by_cases h4 : blockNum ≠ totalLen
          · rw [if_pos h4] at h
            cases hph : ph with
            | none => rw [hph] at h; exact ih _ _ hsrest h
            | some p =>
              rw [hph] at h
              cases hbh : b.hash with
              | none =>
                have := hsome b (List.mem_cons_self _ _)
                rw [hbh] at this
                exact absurd this (by simp)
              | some hh =>
                rw [hbh] at h
                dsimp only at h
                by_cases h5 : p ≠ hh
                · rw [if_pos h5] at h; exact absurd h (by simp)
                · rw [if_neg h5] at h; exact ih _ _ hsrest h
          · rw [if_neg h4] at h; exact ih _ _ hsrest h

/-! ## Claim theorems -/

/-- C8: a transaction's hash is a deterministic function of the tuple
(nonce, timestamp, from, data) only — two transactions agreeing on that
tuple hash identically whatever their signature fields hold, and `sign`
never changes a transaction's hash. -/
theorem c8_hash_ignores_signature (c : Crypto) (t1 t2 : Transaction)
    (hn : t1.nonce = t2.nonce) (ht : t1.timestamp = t2.timestamp)
    (hf : t1.«from» = t2.«from») (hd : t1.data = t2.data) :
    t1.hash c = t2.hash c ∧
    ∀ (t : Transaction) (s : Option Signature), (t.sign s).hash c = t.hash c := by
  constructor
  · unfold Transaction.hash Transaction.serialize
    rw [hn, ht, hf, hd]
  · intro t s
    rfl

/-- Witness for C8: two concrete transactions that differ only in their
signature field hash identically, and signing preserves the hash. -/
theorem c8_hash_ignores_signature_witness :
    (⟨7, 5, some "a", TransactionData.Transfer "b" 4, none⟩ : Transaction).hash cId =
      (⟨7, 5, some "a", TransactionData.Transfer "b" 4, some 9⟩ : Transaction).hash cId ∧
    ∀ (t : Transaction) (s : Option Signature), (t.sign s).hash cId = t.hash cId :=
  c8_hash_ignores_signature cId
    ⟨7, 5, some "a", TransactionData.Transfer "b" 4, none⟩
    ⟨7, 5, some "a", TransactionData.Transfer "b" 4, some 9⟩ rfl rfl rfl rfl

/-- C7: `MintInitialSupply` run outside genesis fails with the genesis-only
error no matter whether the destination exists; in genesis it fails when the
destination is absent and otherwise credits the amount. -/
theorem c7_mint_genesis_only (c : Crypto) (t : Transaction) (A : Accounts)
    (toId : AccountId) (amount : Nat)
    (hd : t.data = TransactionData.MintInitialSupply toId amount) :
    (t.execute c A false =
      (RustResult.err "Initial supply can be minted only in genesis block.", A)) ∧
    (lookupAccount A toId = none →
      t.execute c A true = (RustResult.err "Invalid account.", A)) ∧
    (∀ acct : Account, lookupAccount A toId = some acct →
      acct.balance + amount < U128MOD →
      (t.execute c A true).1 = RustResult.ok () ∧
      lookupAccount (t.execute c A true).2 toId =
        some { acct with balance := acct.balance + amount } ∧
      (∀ id2, id2 ≠ toId →
        lookupAccount (t.execute c A true).2 id2 = lookupAccount A id2)) := by
  refine ⟨?_, ?_, ?_⟩
  · simp [Transaction.execute, hd]
  · intro hnone
    simp [Transaction.execute, hd, hnone]
  · intro acct hsome hlt
    simp only [Transaction.execute, hd]
    rw [if_neg (by simp)]
    rw [hsome]
    dsimp only
    rw [if_pos hlt]
    refine ⟨rfl, ?_, ?_⟩
    · exact lookupAccount_update_self A toId _ acct hsome
    · intro id2 hne
      exact lookupAccount_update_ne A toId id2 _ hne

/-- Witness for C7: minting 5 to the existing account "a" (balance 10) in a
genesis context succeeds and credits it; outside genesis the same
transaction is rejected with the genesis-only error. -/
theorem c7_mint_genesis_only_witness :
    (txMintA.execute cId ledgerA false =
      (RustResult.err "Initial supply can be minted only in genesis block.", ledgerA)) ∧
    (lookupAccount ledgerA "a" = none →
      txMintA.execute cId ledgerA true = (RustResult.err "Invalid account.", ledgerA)) ∧
    (∀ acct : Account, lookupAccount ledgerA "a" = some acct →
      acct.balance + 5 < U128MOD →
      (txMintA.execute cId ledgerA true).1 = RustResult.ok () ∧
      lookupAccount (txMintA.execute cId ledgerA true).2 "a" =
        some { acct with balance := acct.balance + 5 } ∧
      (∀ id2, id2 ≠ "a" →
        lookupAccount (txMintA.execute cId ledgerA true).2 id2 =
          lookupAccount ledgerA id2)) :=
  c7_mint_genesis_only cId txMintA ledgerA "a" 5 rfl

/-- C1 (code-bug evaluation): a call to `append_block` that returns the
hash-above-target error after its transactions already ran leaves the
mutations in place: account "b" did not exist before the call and exists
after it, although the call returned an error. -/
theorem c1_rollback_missing_eval :
    (Blockchain.append_block cSeven stGate bGate).1 =
      RustResult.err "The hash of block more than target." ∧
    lookupAccount stGate.accounts "b" = none ∧
    lookupAccount (Blockchain.append_block cSeven stGate bGate).2.accounts "b" =
      some (Account.new AccountType.User 2) := by
  refine ⟨by decide, by decide, by decide⟩

/-- C2 (code-bug evaluation): on a non-genesis block whose digest is an
ordinary hex string (it contains letters), `append_block` reaches
`block.hash().parse::<u128>().unwrap()` and aborts: the decimal parse of a
hex digest fails, so the call panics instead of comparing against the
target. -/
theorem c2_parse_panics_eval :
    (Blockchain.append_block cLetters stHex bHex).1 = RustResult.panicked := by
  decide

/-- C3 (counterexample): accepting a genesis block with a single
transaction ends with `target = 0`, not the maximum constant: the retarget
step runs for genesis as well and multiplies the just-assigned maximum by
the clamped ratio 0. -/
theorem c3_counterexample :
    (Blockchain.append_block cSeven Blockchain.new bGenesisOne).1 = RustResult.ok () ∧
    (Blockchain.append_block cSeven Blockchain.new bGenesisOne).2.target = 0 ∧
    (0 : Nat) ≠ MAXTARGET := by
  refine ⟨by decide, by decide, by decide⟩

/-- C5 (counterexample): a self-transfer of 5 from "a" (balance 10) to "a"
executes successfully, yet the sender's balance does not decrease by the
amount: it is still 10, not 10 - 5. -/
theorem c5_counterexample :
    (Transaction.execute cId txSelf ledgerA false).1 = RustResult.ok () ∧
    lookupAccount ledgerA "a" = some ⟨AccountType.User, 1, 10⟩ ∧
    lookupAccount (Transaction.execute cId txSelf ledgerA false).2 "a" =
      some ⟨AccountType.User, 1, 10⟩ ∧
    (10 : Nat) ≠ 10 - 5 := by
  refine ⟨by decide, by decide, by decide, by decide⟩

/-- C6 (counterexample): a chain built purely through successful
`append_block` calls that `validate` rejects: `append_block` never checks
the linkage of `prev_hash`, so a second block carrying `prev_hash = None`
is accepted, and `validate` then fails on it. -/
theorem c6_counterexample :
    (Blockchain.append_block cLow Blockchain.new bGen).1 = RustResult.ok () ∧
    (Blockchain.append_block cLow stOne bUnlinked).1 = RustResult.ok () ∧
    Blockchain.validate cLow stBroken =
      RustResult.err "Block 2 doesn\x27t have prev_hash" := by
  refine ⟨by decide, by decide, by decide⟩

/-- C10 (counterexample): a non-genesis block whose transactions all
succeed and whose last timestamp (5) is below its first (10), on which
`append_block` returns the hash-above-target error rather than panicking:
the all-digit hash parses to `u128::MAX`, at or above the target, and that
rejection fires before the timestamp subtraction is reached. -/
theorem c10_counterexample :
    bTsDec.transactions.map (fun t => t.timestamp) = [10, 5] ∧
    (execTxs cUMax stTen.accounts bTsDec.transactions stTen.blocks.isEmpty).1 =
      RustResult.ok () ∧
    (Blockchain.append_block cUMax stTen bTsDec).1 =
      RustResult.err "The hash of block more than target." ∧
    (Blockchain.append_block cUMax stTen bTsDec).1 ≠ RustResult.panicked := by
  refine ⟨by decide, by decide, by decide, by decide⟩

theorem ratioClamped_eq_min (actual expected : Nat) :
    ratioClamped actual expected = min (actual / expected) 4 := by
  unfold ratioClamped
  by_cases h : actual / expected > 4
  · rw [if_pos h, Nat.min_eq_right (Nat.le_of_lt h)]
  · rw [if_neg h, Nat.min_eq_left (Nat.le_of_not_lt h)]

/-- C3 (amended): genesis acceptance first fixes the target to the maximum
constant and then — the retarget step running for genesis too — multiplies
it by the clamped timestamp-spread ratio of the genesis block itself, so
immediately after a successful genesis append the target equals
`min(MAXTARGET · min(floor((t_last − t_first) / (n·600)), 4), MAXTARGET)`,
which is the maximum constant only when that ratio is at least 1. -/
theorem c3_amended (c : Crypto) (st : Blockchain) (b : Block)
    (ftx ltx : Transaction)
    (hg : st.blocks = [])
    (hf : b.transactions.head? = some ftx)
    (hl : b.transactions.getLast? = some ltx)
    (hok : (Blockchain.append_block c st b).1 = RustResult.ok ()) :
    (Blockchain.append_block c st b).2.target =
      min (MAXTARGET *
        min ((ltx.timestamp - ftx.timestamp) / (b.transactions.length * 10 * 60)) 4)
        MAXTARGET := by
  unfold Blockchain.append_block at hok ⊢
  by_cases hv : b.verify c = false
  · rw [if_pos hv] at hok; exact absurd hok (by simp)
  · rw [if_neg hv] at hok ⊢
    by_cases hlen : b.transactions.length = 0
    · rw [if_pos hlen] at hok; exact absurd hok (by simp)
    · rw [if_neg hlen] at hok ⊢
      have hge : st.blocks.isEmpty = true := by rw [hg]; rfl
      rw [hge] at hok ⊢
      revert hok
      cases hex : execTxs c st.accounts b.transactions true with
      | mk r A2 =>
        intro hok
        cases r with
        | ok u =>
          dsimp only at hok ⊢
          unfold Blockchain.gateAndCommit at hok ⊢
          rw [if_pos rfl] at hok ⊢
          have htar := retargetAppend_ok_target c
            { st with accounts := A2, target := MAXTARGET } b ftx ltx hf hl hok
          rw [ratioClamped_eq_min] at htar
          exact htar
        | err e => exact absurd hok (by simp)
        | panicked => exact absurd hok (by simp)

/-- Witness for C3 (amended): the concrete single-transaction genesis block
has ratio min(0/600, 4) = 0, so the target right after genesis acceptance is
MAXTARGET · 0 = 0. -/
theorem c3_amended_witness :
    Blockchain.new.blocks = [] ∧
    bGenesisOne.transactions.head? =
      some ⟨0, 100, none, TransactionData.CreateAccount "a" 1, none⟩ ∧
    bGenesisOne.transactions.getLast? =
      some ⟨0, 100, none, TransactionData.CreateAccount "a" 1, none⟩ ∧
    (Blockchain.append_block cSeven Blockchain.new bGenesisOne).1 = RustResult.ok () ∧
    (Blockchain.append_block cSeven Blockchain.new bGenesisOne).2.target =
      min (MAXTARGET * min ((100 - 100) / (bGenesisOne.transactions.length * 10 * 60)) 4)
        MAXTARGET :=
  ⟨rfl, by decide, by decide, by decide,
    c3_amended cSeven Blockchain.new bGenesisOne
      ⟨0, 100, none, TransactionData.CreateAccount "a" 1, none⟩
      ⟨0, 100, none, TransactionData.CreateAccount "a" 1, none⟩
      rfl (by decide) (by decide) (by decide)⟩

theorem retargetAppend_panics_of_ts (c : Crypto) (st : Blockchain) (b : Block)
    (ftx ltx : Transaction)
    (hf : b.transactions.head? = some ftx) (hl : b.transactions.getLast? = some ltx)
    (hts : ltx.timestamp < ftx.timestamp) :
    (Blockchain.retargetAppend c st b).1 = RustResult.panicked := by
  unfold Blockchain.retargetAppend
  rw [hf, hl]
  dsimp only
  rw [if_pos hts]

/-- C10 (amended): on a block whose transactions all execute but whose last
transaction timestamp is below its first, `append_block` either panics (at
the timestamp subtraction, or earlier at the decimal hash parse) or returns
the hash-above-target rejection; in particular it panics whenever the block
is genesis or its hash parses to a value below the current target. -/
theorem c10_amended (c : Crypto) (st : Blockchain) (b : Block)
    (ftx ltx : Transaction)
    (hv : b.verify c = true)
    (hf : b.transactions.head? = some ftx)
    (hl : b.transactions.getLast? = some ltx)
    (hts : ltx.timestamp < ftx.timestamp)
    (hex : (execTxs c st.accounts b.transactions st.blocks.isEmpty).1 =
      RustResult.ok ()) :
    (Blockchain.append_block c st b).1 = RustResult.panicked ∨
    (Blockchain.append_block c st b).1 =
      RustResult.err "The hash of block more than target." := by
  have hnil : b.transactions ≠ [] := by
    intro hq; rw [hq] at hf; exact absurd hf (by simp)
  unfold Blockchain.append_block
  rw [if_neg (by simp [hv])]
  rw [if_neg (by simpa using fun hq => hnil (List.length_eq_zero.mp hq))]
  revert hex
  cases hex2 : execTxs c st.accounts b.transactions st.blocks.isEmpty with
  | mk r A2 =>
    intro hex
    cases r with
    | ok u =>
      dsimp only
      cases hgen : st.blocks.isEmpty with
      | true =>
        unfold Blockchain.gateAndCommit
        rw [if_pos rfl]
        exact Or.inl (retargetAppend_panics_of_ts c _ b ftx ltx hf hl hts)
      | false =>
        unfold Blockchain.gateAndCommit
        rw [if_neg (by simp)]
        cases hp : parseU128? (b.computedHash c) with
        | none => exact Or.inl rfl
        | some v =>
          dsimp only
          by_cases hge : st.target ≤ v
          · rw [if_pos hge]
            exact Or.inr rfl
          · rw [if_neg hge]
            exact Or.inl (retargetAppend_panics_of_ts c _ b ftx ltx hf hl hts)
    | err e => exact absurd hex (by simp)
    | panicked => exact absurd hex (by simp)

/-- Witness for C10 (amended): the genesis block with timestamps 10 then 5
makes `append_block` panic (or reject), per the amended claim — and here it
concretely panics at the timestamp subtraction. -/
theorem c10_amended_witness :
    bTsDecGen.verify cSeven = true ∧
    (execTxs cSeven Blockchain.new.accounts bTsDecGen.transactions
      Blockchain.new.blocks.isEmpty).1 = RustResult.ok () ∧
    ((Blockchain.append_block cSeven Blockchain.new bTsDecGen).1 =
        RustResult.panicked ∨
      (Blockchain.append_block cSeven Blockchain.new bTsDecGen).1 =
        RustResult.err "The hash of block more than target.") :=
  ⟨by decide, by decide,
    c10_amended cSeven Blockchain.new bTsDecGen
      ⟨0, 10, none, TransactionData.CreateAccount "p" 1, none⟩
      ⟨0, 5, none, TransactionData.CreateAccount "q" 2, none⟩
      (by decide) (by decide) (by decide) (by decide) (by decide)⟩

/-- C9: a successful non-genesis `append_block` preserves the total supply:
the sum of all account balances is unchanged (creates insert zero-balance
accounts, transfers move value, mint cannot run outside genesis). -/
theorem c9_conservation (c : Crypto) (st : Blockchain) (b : Block)
    (hne : st.blocks ≠ [])
    (hwf : AccountsWF st.accounts)
    (hok : (Blockchain.append_block c st b).1 = RustResult.ok ()) :
    sumBalances (Blockchain.append_block c st b).2.accounts =
      sumBalances st.accounts := by
  obtain ⟨hv, hex, hblocks, hacc⟩ := append_ok_fields c st b hok
  rw [hacc]
  have hgen : st.blocks.isEmpty = false := by
    cases hsb : st.blocks with
    | nil => exact absurd hsb hne
    | cons x xs => rfl
  rw [hgen] at hex ⊢
  exact (execTxs_ok_conserves c b.transactions st.accounts hwf hex).1

/-- Witness for C9: appending a successful block (one create-account
transaction) on a funded non-genesis chain leaves the balance sum at 7. -/
theorem c9_conservation_witness :
    stConsv.blocks ≠ [] ∧
    AccountsWF stConsv.accounts ∧
    (Blockchain.append_block cLow stConsv bConsv).1 = RustResult.ok () ∧
    sumBalances (Blockchain.append_block cLow stConsv bConsv).2.accounts =
      sumBalances stConsv.accounts :=
  ⟨by decide, by decide, by decide,
    c9_conservation cLow stConsv bConsv (by decide) (by decide) (by decide)⟩

/-- C6 (amended): for every chain built through successful `append_block`
calls in which each appended block was linked to the current head by the
builder flow (`Block::new(bc.get_last_block_hash())`): `validate` accepts
the chain; exactly the chain's position-wise first block (the genesis, the
last element of the newest-first list) lacks a `prev_hash` while every
other block carries the content hash of its predecessor; and after mutating
any stored block's transaction data in place so that its recomputed hash
changes, `validate` rejects the chain. -/
theorem c6_amended (c : Crypto) (st : Blockchain) (hb : Built c st) :
    Blockchain.validate c st = RustResult.ok () ∧
    (∀ (pre post : List Block) (bb : Block), st.blocks = pre ++ bb :: post →
      (bb.prev_hash = none ↔ post = [])) ∧
    (∀ (pre post : List Block) (bi : Block) (txs2 : List Transaction),
      st.blocks = pre ++ bi :: post →
      Block.computedHash c { bi with transactions := txs2 } ≠
        Block.computedHash c bi →
      ∃ e, Blockchain.validate c
        { st with blocks := pre ++ { bi with transactions := txs2 } :: post } =
        RustResult.err e) := by
  have hwf := built_chainWF c st hb
  refine ⟨validate_ok_of_chainWF c st hwf, ?_, ?_⟩
  · intro pre post bb hsplit
    rw [hsplit] at hwf
    exact chainWF_prev_hash_iff c pre post bb hwf
  · intro pre post bi txs2 hsplit hneq
    have hbiv : bi.verify c = true := by
      apply chainWF_all_verify c st.blocks hwf
      rw [hsplit]
      exact List.mem_append_right _ (List.mem_cons_self _ _)
    have hbih : bi.hash = some (Block.computedHash c bi) := verify_hash_eq c bi hbiv
    have hmuth : ({ bi with transactions := txs2 } : Block).hash = bi.hash := rfl
    have hmutv : Block.verify c { bi with transactions := txs2 } = false := by
      unfold Block.verify
      rw [hmuth, hbih]
      simp only [beq_eq_false_iff_ne, ne_eq, Option.some.injEq]
      exact fun hq => hneq hq.symm
    have hsome : ∀ b2 ∈ pre ++ { bi with transactions := txs2 } :: post,
        b2.hash.isSome := by
      intro b2 hb2
      rcases List.mem_append.mp hb2 with hmem | hmem
      · have hmem2 : b2 ∈ st.blocks := by
          rw [hsplit]; exact List.mem_append_left _ hmem
        rw [verify_hash_eq c b2 (chainWF_all_verify c st.blocks hwf b2 hmem2)]
        rfl
      · rcases List.mem_cons.mp hmem with hq | hmem2
        · subst hq
          rw [hmuth, hbih]
          rfl
        · have hmem3 : b2 ∈ st.blocks := by
            rw [hsplit]
            exact List.mem_append_right _ (List.mem_cons_of_mem _ hmem2)
          rw [verify_hash_eq c b2 (chainWF_all_verify c st.blocks hwf b2 hmem3)]
          rfl
    have hnok : Blockchain.validate c
        { st with blocks := pre ++ { bi with transactions := txs2 } :: post } ≠
        RustResult.ok () := by
      intro hok2
      unfold Blockchain.validate at hok2
      have hvg := validateLoop_ok_all_verify c _ _ _ _ hok2
        { bi with transactions := txs2 }
        (List.mem_append_right _ (List.mem_cons_self _ _))
      rw [hmutv] at hvg
      exact absurd hvg (by simp)
    have hnp : Blockchain.validate c
        { st with blocks := pre ++ { bi with transactions := txs2 } :: post } ≠
        RustResult.panicked := by
      unfold Blockchain.validate
      exact validateLoop_no_panic c _ _ _ _ hsome
    cases hres : Blockchain.validate c
        { st with blocks := pre ++ { bi with transactions := txs2 } :: post } with
    | ok u => cases u; exact absurd hres hnok
    | err e => exact ⟨e, rfl⟩
    | panicked => exact absurd hres hnp

theorem built_stTwo : Built cLow stTwo := by
  have h1 : Built cLow stOne :=
    Built.step Blockchain.new bGen Built.nil (by decide) (by decide)
  exact Built.step stOne bLinked h1 (by decide) (by decide)

/-- Witness for C6 (amended): the concrete honestly-linked two-block chain
`stTwo` satisfies the amended claim's conclusion. -/
theorem c6_amended_witness :
    Blockchain.validate cLow stTwo = RustResult.ok () ∧
    (∀ (pre post : List Block) (bb : Block), stTwo.blocks = pre ++ bb :: post →
      (bb.prev_hash = none ↔ post = [])) ∧
    (∀ (pre post : List Block) (bi : Block) (txs2 : List Transaction),
      stTwo.blocks = pre ++ bi :: post →
      Block.computedHash cLow { bi with transactions := txs2 } ≠
        Block.computedHash cLow bi →
      ∃ e, Blockchain.validate cLow
        { stTwo with blocks := pre ++ { bi with transactions := txs2 } :: post } =
        RustResult.err e) :=
  c6_amended cLow stTwo built_stTwo

theorem executeTransfer_success_eval (c : Crypto) (t : Transaction) (toId : AccountId)
    (amount : Nat) (A : Accounts) (s : AccountId)
    (sender receiver receiverAcct : Account) (sg : Signature)
    (hfrom : t.«from» = some s)
    (hsend : lookupAccount A s = some sender)
    (hrecv : lookupAccount A toId = some receiver)
    (hsig : t.signature = some sg)
    (hver : c.verify sender.public_key (t.hash c) sg = true)
    (hnbal : ¬ sender.balance < amount)
    (hnov : ¬ (U128MOD - 1 - amount < receiver.balance))
    (hrecv2 : lookupAccount (updateAccount A s
      { sender with balance := sender.balance - amount }) toId = some receiverAcct)
    (hcred : receiverAcct.balance + amount < U128MOD) :
    executeTransfer c t toId amount A =
      (RustResult.ok (),
        updateAccount (updateAccount A s
          { sender with balance := sender.balance - amount }) toId
          { receiverAcct with balance := receiverAcct.balance + amount }) := by
  unfold executeTransfer
  rw [hfrom]
  dsimp only
  rw [hsend]
  dsimp only
  rw [hrecv]
  dsimp only
  rw [hsig]
  dsimp only
  rw [if_neg (by simp [hver])]
  rw [if_neg hnbal]
  rw [if_neg hnov]
  rw [hrecv2]
  dsimp only
  rw [if_pos hcred]

/-- C5 (amended): executing a `Transfer` fails — leaving the ledger
untouched — when the sender field is absent, the sender or the receiver is
unknown, the signature is missing or fails verification against the sender's
stored key over the transaction's own hash, the sender's balance is below
the amount, or crediting would overflow the receiver's `u128` balance;
otherwise it succeeds, and when the sender and receiver are distinct the
sender's balance drops and the receiver's rises by exactly the amount
(other accounts untouched), while a self-transfer succeeds with every
balance unchanged (the debit and credit cancel). -/
theorem c5_transfer_amended (c : Crypto) (t : Transaction) (A : Accounts) (g : Bool)
    (toId : AccountId) (amount : Nat)
    (hd : t.data = TransactionData.Transfer toId amount)
    (hwf : AccountsWF A) (ham : amount < U128MOD) :
    (t.«from» = none → t.execute c A g = (RustResult.err "Invalid sender ID.", A)) ∧
    (∀ s, t.«from» = some s → lookupAccount A s = none →
      t.execute c A g = (RustResult.err "Invalid sender account.", A)) ∧
    (∀ s sender, t.«from» = some s → lookupAccount A s = some sender →
      lookupAccount A toId = none →
      t.execute c A g = (RustResult.err "Invalid receiver account.", A)) ∧
    (∀ s sender receiver, t.«from» = some s → lookupAccount A s = some sender →
      lookupAccount A toId = some receiver → t.signature = none →
      t.execute c A g = (RustResult.err "Not sign.", A)) ∧
    (∀ s sender receiver sg, t.«from» = some s → lookupAccount A s = some sender →
      lookupAccount A toId = some receiver → t.signature = some sg →
      c.verify sender.public_key (t.hash c) sg = false →
      t.execute c A g = (RustResult.err "Invalid signature.", A)) ∧
    (∀ s sender receiver sg, t.«from» = some s → lookupAccount A s = some sender →
      lookupAccount A toId = some receiver → t.signature = some sg →
      c.verify sender.public_key (t.hash c) sg = true →
      sender.balance < amount →
      t.execute c A g = (RustResult.err "Insufficient balance", A)) ∧
    (∀ s sender receiver sg, t.«from» = some s → lookupAccount A s = some sender →
      lookupAccount A toId = some receiver → t.signature = some sg →
      c.verify sender.public_key (t.hash c) sg = true →
      ¬ sender.balance < amount →
      U128MOD - 1 - amount < receiver.balance →
      t.execute c A g = (RustResult.err "Type overflow", A)) ∧
    (∀ s sender receiver sg, t.«from» = some s → lookupAccount A s = some sender →
      lookupAccount A toId = some receiver → t.signature = some sg →
      c.verify sender.public_key (t.hash c) sg = true →
      ¬ sender.balance < amount →
      ¬ (U128MOD - 1 - amount < receiver.balance) →
      (t.execute c A g).1 = RustResult.ok () ∧
      (s ≠ toId →
        lookupAccount (t.execute c A g).2 s =
          some { sender with balance := sender.balance - amount } ∧
        lookupAccount (t.execute c A g).2 toId =
          some { receiver with balance := receiver.balance + amount }) ∧
      (s = toId → ∀ id2, lookupAccount (t.execute c A g).2 id2 = lookupAccount A id2) ∧
      (∀ id2, id2 ≠ s → id2 ≠ toId →
        lookupAccount (t.execute c A g).2 id2 = lookupAccount A id2)) := by
  refine ⟨?_, ?_, ?_, ?_, ?_, ?_, ?_, ?_⟩
  · intro hfrom
    simp only [Transaction.execute, hd]
    unfold executeTransfer
    rw [hfrom]
  · intro s hfrom hsend
    simp only [Transaction.execute, hd]
    unfold executeTransfer
    rw [hfrom]
    dsimp only
    rw [hsend]
  · intro s sender hfrom hsend hrecv
    simp only [Transaction.execute, hd]
    unfold executeTransfer
    rw [hfrom]
    dsimp only
    rw [hsend]
    dsimp only
    rw [hrecv]
  · intro s sender receiver hfrom hsend hrecv hsig
    simp only [Transaction.execute, hd]
    unfold executeTransfer
    rw [hfrom]
    dsimp only
    rw [hsend]
    dsimp only
    rw [hrecv]
    dsimp only
    rw [hsig]
  · intro s sender receiver sg hfrom hsend hrecv hsig hver
    simp only [Transaction.execute, hd]
    unfold executeTransfer
    rw [hfrom]
    dsimp only
    rw [hsend]
    dsimp only
    rw [hrecv]
    dsimp only
    rw [hsig]
    dsimp only
    rw [if_pos hver]
  · intro s sender receiver sg hfrom hsend hrecv hsig hver hlt
    simp only [Transaction.execute, hd]
    unfold executeTransfer
    rw [hfrom]
    dsimp only
    rw [hsend]
    dsimp only
    rw [hrecv]
    dsimp only
    rw [hsig]
    dsimp only
    rw [if_neg (by simp [hver])]
    rw [if_pos hlt]
  · intro s sender receiver sg hfrom hsend hrecv hsig hver hnbal hov
    simp only [Transaction.execute, hd]
    unfold executeTransfer
    rw [hfrom]
    dsimp only
    rw [hsend]
    dsimp only
    rw [hrecv]
    dsimp only
    rw [hsig]
    dsimp only
    rw [if_neg (by simp [hver])]
    rw [if_neg hnbal]
    rw [if_pos hov]
  · intro s sender receiver sg hfrom hsend hrecv hsig hver hnbal hnov
    have hle : amount ≤ sender.balance := Nat.le_of_not_lt hnbal
    have hwb : sender.balance < U128MOD := hwf _ (lookupAccount_mem A s sender hsend)
    simp only [Transaction.execute, hd]
    by_cases hst : s = toId
    · subst hst
      have hrs : receiver = sender := by
        rw [hsend] at hrecv
        injection hrecv with hq
        exact hq.symm
      subst hrs
      have hrecv2 : lookupAccount (updateAccount A s
          { receiver with balance := receiver.balance - amount }) s =
          some { receiver with balance := receiver.balance - amount } :=
        lookupAccount_update_self A s _ receiver hsend
      have hcred : ({ receiver with balance := receiver.balance - amount } : Account).balance
          + amount < U128MOD := by
        show receiver.balance - amount + amount < U128MOD
        omega
      rw [executeTransfer_success_eval c t s amount A s receiver receiver
        { receiver with balance := receiver.balance - amount } sg hfrom hsend hrecv hsig
        hver hnbal hnov hrecv2 hcred]
      refine ⟨rfl, fun hq => absurd rfl hq, fun _ => ?_, fun id2 h2s _ => ?_⟩
      · intro id2
        by_cases h2 : id2 = s
        · subst h2
          rw [lookupAccount_update_self _ id2 _ _ hrecv2]
          rw [hsend]
          show some { receiver with balance := receiver.balance - amount + amount } = _
          rw [Nat.sub_add_cancel hle]
        · rw [lookupAccount_update_ne _ s id2 _ h2, lookupAccount_update_ne _ s id2 _ h2]
      · rw [lookupAccount_update_ne _ s id2 _ h2s, lookupAccount_update_ne _ s id2 _ h2s]
    · have hrecv2 : lookupAccount (updateAccount A s
          { sender with balance := sender.balance - amount }) toId = some receiver := by
        rw [lookupAccount_update_ne A s toId _ (fun hq => hst hq.symm)]
        exact hrecv
      have hcred : receiver.balance + amount < U128MOD := by omega
      rw [executeTransfer_success_eval c t toId amount A s sender receiver receiver sg
        hfrom hsend hrecv hsig hver hnbal hnov hrecv2 hcred]
      refine ⟨rfl, fun _ => ⟨?_, ?_⟩, fun hq => absurd hq hst, fun id2 h2s h2t => ?_⟩
      · rw [lookupAccount_update_ne _ toId s _ hst]
        exact lookupAccount_update_self A s _ sender hsend
      · exact lookupAccount_update_self _ toId _ receiver hrecv2
      · rw [lookupAccount_update_ne _ toId id2 _ h2t, lookupAccount_update_ne _ s id2 _ h2s]

/-- Witness for C5 (amended), at the concrete transfer of 4 from "a"
(balance 10) to "b" (balance 3). -/
theorem c5_transfer_amended_witness :
    (txAtoB.«from» = none →
      txAtoB.execute cId ledgerAB false = (RustResult.err "Invalid sender ID.", ledgerAB)) ∧
    (∀ s, txAtoB.«from» = some s → lookupAccount ledgerAB s = none →
      txAtoB.execute cId ledgerAB false =
        (RustResult.err "Invalid sender account.", ledgerAB)) ∧
    (∀ s sender, txAtoB.«from» = some s → lookupAccount ledgerAB s = some sender →
      lookupAccount ledgerAB "b" = none →
      txAtoB.execute cId ledgerAB false =
        (RustResult.err "Invalid receiver account.", ledgerAB)) ∧
    (∀ s sender receiver, txAtoB.«from» = some s →
      lookupAccount ledgerAB s = some sender →
      lookupAccount ledgerAB "b" = some receiver → txAtoB.signature = none →
      txAtoB.execute cId ledgerAB false = (RustResult.err "Not sign.", ledgerAB)) ∧
    (∀ s sender receiver sg, txAtoB.«from» = some s →
      lookupAccount ledgerAB s = some sender →
      lookupAccount ledgerAB "b" = some receiver → txAtoB.signature = some sg →
      cId.verify sender.public_key (txAtoB.hash cId) sg = false →
      txAtoB.execute cId ledgerAB false =
        (RustResult.err "Invalid signature.", ledgerAB)) ∧
    (∀ s sender receiver sg, txAtoB.«from» = some s →
      lookupAccount ledgerAB s = some sender →
      lookupAccount ledgerAB "b" = some receiver → txAtoB.signature = some sg →
      cId.verify sender.public_key (txAtoB.hash cId) sg = true →
      sender.balance < 4 →
      txAtoB.execute cId ledgerAB false =
        (RustResult.err "Insufficient balance", ledgerAB)) ∧
    (∀ s sender receiver sg, txAtoB.«from» = some s →
      lookupAccount ledgerAB s = some sender →
      lookupAccount ledgerAB "b" = some receiver → txAtoB.signature = some sg →
      cId.verify sender.public_key (txAtoB.hash cId) sg = true →
      ¬ sender.balance < 4 →
      U128MOD - 1 - 4 < receiver.balance →
      txAtoB.execute cId ledgerAB false = (RustResult.err "Type overflow", ledgerAB)) ∧
    (∀ s sender receiver sg, txAtoB.«from» = some s →
      lookupAccount ledgerAB s = some sender →
      lookupAccount ledgerAB "b" = some receiver → txAtoB.signature = some sg →
      cId.verify sender.public_key (txAtoB.hash cId) sg = true →
      ¬ sender.balance < 4 →
      ¬ (U128MOD - 1 - 4 < receiver.balance) →
      (txAtoB.execute cId ledgerAB false).1 = RustResult.ok () ∧
      (s ≠ "b" →
        lookupAccount (txAtoB.execute cId ledgerAB false).2 s =
          some { sender with balance := sender.balance - 4 } ∧
        lookupAccount (txAtoB.execute cId ledgerAB false).2 "b" =
          some { receiver with balance := receiver.balance + 4 }) ∧
      (s = "b" → ∀ id2, lookupAccount (txAtoB.execute cId ledgerAB false).2 id2 =
        lookupAccount ledgerAB id2) ∧
      (∀ id2, id2 ≠ s → id2 ≠ "b" →
        lookupAccount (txAtoB.execute cId ledgerAB false).2 id2 =
          lookupAccount ledgerAB id2)) :=
  c5_transfer_amended cId txAtoB ledgerAB false "b" 4 rfl (by decide) (by decide)
